import Mathlib

/-!
# Verification of the `storeit` query-criteria compiler

A shallow embedding of the `storeit` Go package (criteria.go, store.go,
utils.go): the `Criteria` predicate accumulator, the tag extractor, the
reserved-word quoting utility, and the `GormStore` presenter/compiler with
its transient builder-state lifecycle.

Modelling conventions:
* Go slices are modelled as Lean lists; a `nil` slice and an empty slice
  are identified (the package never materialises a non-nil empty slice on
  the paths modelled here).
* Go `int` is modelled as `Int`.
* Go `any` values bound as condition arguments are modelled by the flat
  inductive `GoVal`; values of kinds the package never inspects beyond
  "not one of the known kinds" are collapsed into `GoVal.vother`.
* Reflection sources handed to `ExtractCriteria` are modelled by
  `GoSource`, which records exactly what `reflect` observes: the kind, and
  for structs the field list with each field's `criteria` tag and value.
-/

namespace Storeit

/-- Decidable equality for `Except` results, so concrete runs of the
modelled fallible functions can be checked by `decide`. -/
instance instDecEqExcept {ε α : Type} [DecidableEq ε] [DecidableEq α] :
    DecidableEq (Except ε α)
  | .error e, .error f =>
    if h : e = f then .isTrue (congrArg Except.error h)
    else .isFalse (fun c => h (Except.error.inj c))
  | .error _, .ok _ => .isFalse Except.noConfusion
  | .ok _, .error _ => .isFalse Except.noConfusion
  | .ok x, .ok y =>
    if h : x = y then .isTrue (congrArg Except.ok h)
    else .isFalse (fun c => h (Except.ok.inj c))

/-- Model of the Go `any` values bound as condition arguments: `nil`,
integers, strings, booleans; `vother` stands for a value of any further
kind (slice, map, struct, ...) that the package only ever passes through
opaquely or rejects in its type switches. -/
inductive GoVal where
  | vnil
  | vint (n : Int)
  | vstr (s : String)
  | vbool (b : Bool)
  | vother (kind : String)
deriving DecidableEq, Repr

/-- One struct field as seen by reflection: its name, the value of its
`criteria` struct tag (`""` when absent, exactly as
`reflect.StructTag.Get` reports it), and its value. -/
structure GoField where
  name : String
  tag : String
  value : GoVal
deriving DecidableEq, Repr

/-- A reflection source value for `ExtractCriteria`: a struct, a pointer
(the code never dereferences pointers, so only a pointer's nil-ness and
its target's struct fields, when any, are recorded), or a value of any
other kind. -/
inductive GoSource where
  | gstruct (fields : List GoField)
  | gptr (elem : Option (List GoField))
  | gval (v : GoVal)
deriving DecidableEq, Repr

/-- `reflect.Value.IsZero` on the modelled argument values. -/
def GoVal.isZero : GoVal → Bool
  | .vnil => true
  | .vint n => n == 0
  | .vstr s => s == ""
  | .vbool b => !b
  | .vother _ => false

/-- `reflect.TypeOf(source).Kind() == reflect.Struct`. -/
def GoSource.isStructKind : GoSource → Bool
  | .gstruct _ => true
  | _ => false

/-- `conditionSpec` (criteria.go): one predicate fragment.  `query` is `any`
in Go; the package itself only ever stores a string fragment or leaves it
`nil` (the `buildConditionSpec` "no predicate" result). -/
structure ConditionSpec where
  query : GoVal := .vnil
  args : List GoVal := []
deriving DecidableEq, Repr

/-- `joinSpec` (criteria.go). -/
structure JoinSpec where
  query : String
  args : List GoVal := []
deriving DecidableEq, Repr

/-- `havingSpec` (criteria.go). -/
structure HavingSpec where
  query : GoVal
  args : List GoVal := []
deriving DecidableEq, Repr

/-- `preloadEntry` (store.go). -/
structure PreloadEntry where
  name : String
  args : List GoVal := []
deriving DecidableEq, Repr

/-- `Criteria` (criteria.go): the declarative specification aggregate.
The `preloads` field is referenced by `present` in store.go (merged into the
store's preloads) and is declared in the revision of criteria.go that
matches store.go. -/
structure Criteria where
  whereConditions : List ConditionSpec := []
  groupOrConditions : List (List ConditionSpec) := []
  orConditions : List ConditionSpec := []
  notConditions : List ConditionSpec := []
  havingConditions : List HavingSpec := []
  joinConditions : List JoinSpec := []
  orders : List String := []
  preloads : List PreloadEntry := []
  limit : Int := 0
  offset : Int := 0
  group : String := ""
  page : Int := 0
deriving DecidableEq, Repr

/-- `NewCriteria`. -/
def NewCriteria : Criteria := {}

/-- `Criteria.Where`: append an AND-ed condition. -/
def Criteria.Where (c : Criteria) (query : GoVal) (values : List GoVal) : Criteria :=
  { c with whereConditions := c.whereConditions ++ [{ query := query, args := values }] }

/-- `Criteria.WhereNot`. -/
def Criteria.WhereNot (c : Criteria) (query : GoVal) (values : List GoVal) : Criteria :=
  { c with notConditions := c.notConditions ++ [{ query := query, args := values }] }

/-- `Criteria.WhereIsNull`: `s.Where("? IS NULL", field)`. -/
def Criteria.WhereIsNull (c : Criteria) (field : String) : Criteria :=
  c.Where (.vstr "? IS NULL") [.vstr field]

/-- `Criteria.WhereNotNull`: `s.Where("? IS NOT NULL", field)`. -/
def Criteria.WhereNotNull (c : Criteria) (field : String) : Criteria :=
  c.Where (.vstr "? IS NOT NULL") [.vstr field]

/-- `Criteria.WhereNotIn`: `s.Where(field+" IN ?", values)`. -/
def Criteria.WhereNotIn (c : Criteria) (field : String) (values : GoVal) : Criteria :=
  c.Where (.vstr (field ++ " IN ?")) [values]

/-- `Criteria.WhereIn`: `s.Where(field+" NOT IN ?", values)`. -/
def Criteria.WhereIn (c : Criteria) (field : String) (values : GoVal) : Criteria :=
  c.Where (.vstr (field ++ " NOT IN ?")) [values]

/-- `Criteria.WhereBetween`. -/
def Criteria.WhereBetween (c : Criteria) (field : String) (start finish : GoVal) : Criteria :=
  c.Where (.vstr (field ++ " BETWEEN ? AND ?")) [start, finish]

/-- `Criteria.GroupOr`: append one fan-out OR group. -/
def Criteria.GroupOr (c : Criteria) (group : List ConditionSpec) : Criteria :=
  { c with groupOrConditions := c.groupOrConditions ++ [group] }

/-- `Criteria.OrWhere`. -/
def Criteria.OrWhere (c : Criteria) (query : GoVal) (values : List GoVal) : Criteria :=
  { c with orConditions := c.orConditions ++ [{ query := query, args := values }] }

/-- `Criteria.Order`: append `value` or `value ++ " DESC"` when `reorder`. -/
def Criteria.Order (c : Criteria) (value : String) (reorder : Bool) : Criteria :=
  if reorder then { c with orders := c.orders ++ [value ++ " DESC"] }
  else { c with orders := c.orders ++ [value] }

/-- `Criteria.Limit`. -/
def Criteria.Limit (c : Criteria) (limit : Int) : Criteria :=
  { c with limit := limit }

/-- `Criteria.Offset`. -/
def Criteria.Offset (c : Criteria) (offset : Int) : Criteria :=
  { c with offset := offset }

/-- `Criteria.Page`: pages below 1 clamp to 1. -/
def Criteria.Page (c : Criteria) (page : Int) : Criteria :=
  { c with page := if page < 1 then 1 else page }

/-- `Criteria.PerPage`: sets `limit`. -/
def Criteria.PerPage (c : Criteria) (perPage : Int) : Criteria :=
  { c with limit := perPage }

/-- `Criteria.Group`: stores the GROUP BY expression. -/
def Criteria.Group (c : Criteria) (query : String) : Criteria :=
  { c with group := query }

/-- `Criteria.Having`. -/
def Criteria.Having (c : Criteria) (query : GoVal) (values : List GoVal) : Criteria :=
  { c with havingConditions := c.havingConditions ++ [{ query := query, args := values }] }

/-- `Criteria.Joins`. -/
def Criteria.Joins (c : Criteria) (query : String) (values : List GoVal) : Criteria :=
  { c with joinConditions := c.joinConditions ++ [{ query := query, args := values }] }

/-- `Criteria.AddPreload` (criteria.go revision matching store.go). -/
def Criteria.AddPreload (c : Criteria) (name : String) (args : List GoVal) : Criteria :=
  { c with preloads := c.preloads ++ [{ name := name, args := args }] }

/-- `Criteria.GetPage`. -/
def Criteria.GetPage (c : Criteria) : Int := c.page

/-- `Criteria.GetPerPage`. -/
def Criteria.GetPerPage (c : Criteria) : Int := c.limit

/-- `Criteria.GetLimit`. -/
def Criteria.GetLimit (c : Criteria) : Int := c.limit

/-- `Criteria.GetOffset`: the explicit offset when positive, otherwise
`limit * (page - 1)`. -/
def Criteria.GetOffset (c : Criteria) : Int :=
  if c.offset > 0 then c.offset else c.GetLimit * (c.GetPage - 1)

/-- `Criteria.unsetOrder`. -/
def Criteria.unsetOrder (c : Criteria) : Criteria :=
  { c with orders := [] }

/-- `Criteria.unsetLimit`: clears `limit` and `offset` (not `page`). -/
def Criteria.unsetLimit (c : Criteria) : Criteria :=
  { c with limit := 0, offset := 0 }

/-! ## String helpers

Kernel-computable models of the Go string operations the package uses
(`strings.Split` on the one-character separators `":"` and `","`,
`strings.TrimSpace`, `strings.TrimRight(s, "+-")`, `strings.HasSuffix`,
`strconv.Atoi`), written by structural recursion on the character list so
concrete runs reduce. -/

/-- Split a character list on a separator character (`strings.Split`
semantics: splitting the empty string yields one empty part). -/
def splitChars (sep : Char) : List Char → List (List Char)
  | [] => [[]]
  | c :: cs =>
    let r := splitChars sep cs
    if c = sep then [] :: r
    else
      match r with
      | h :: t => (c :: h) :: t
      | [] => [[c]]

/-- `strings.Split(s, sep)` for a one-character separator. -/
def goSplit (s : String) (sep : Char) : List String :=
  (splitChars sep s.data).map String.mk

/-- ASCII whitespace (the cases `strings.TrimSpace` meets here). -/
def isSpaceChar (c : Char) : Bool :=
  c = ' ' || c = '\t' || c = '\n' || c = '\r'

/-- `strings.TrimSpace`. -/
def goTrimSpace (s : String) : String :=
  String.mk (((s.data.dropWhile isSpaceChar).reverse.dropWhile isSpaceChar).reverse)

/-- `strings.TrimRight(s, "+-")`. -/
def goTrimRightPlusMinus (s : String) : String :=
  String.mk ((s.data.reverse.dropWhile (fun c => c = '+' || c = '-')).reverse)

/-- `strings.HasSuffix(s, "-")`. -/
def goHasDashSuffix (s : String) : Bool :=
  match s.data.getLast? with
  | some c => c = '-'
  | none => false

/-- Decimal digit test. -/
def isDigitChar (c : Char) : Bool :=
  48 ≤ c.toNat && c.toNat ≤ 57

/-- Accumulate a decimal digit string. -/
def digitsAcc (acc : Nat) : List Char → Option Nat
  | [] => some acc
  | c :: cs => if isDigitChar c then digitsAcc (acc * 10 + (c.toNat - 48)) cs else none

/-- `strconv.Atoi` (after trimming): optional sign, one or more digits. -/
def goAtoi (s : String) : Option Int :=
  match s.data with
  | [] => none
  | '-' :: ds => if ds.isEmpty then none else (digitsAcc 0 ds).map (fun n => -(n : Int))
  | '+' :: ds => if ds.isEmpty then none else (digitsAcc 0 ds).map (fun n => (n : Int))
  | ds => (digitsAcc 0 ds).map (fun n => (n : Int))

/-! ## utils.go -/

/-- `AnyToString` (utils.go): the type switch restricted to the modelled
kinds.  `nil` yields `""` with no error; integers, booleans and strings
convert; any other kind falls into the `default` branch and errors. -/
def AnyToString (val : GoVal) : Except String String :=
  match val with
  | .vnil => .ok ""
  | .vint n => .ok (toString n)
  | .vstr s => .ok s
  | .vbool b => .ok (if b then "true" else "false")
  | .vother _ => .error "convert value type error"

/-- `AnyToInt` (utils.go): `nil` yields `0`; integers pass through; strings
go through `strconv.Atoi` after `strings.TrimSpace`; booleans and all other
kinds fall into the `default` branch and error. -/
def AnyToInt (val : GoVal) : Except String Int :=
  match val with
  | .vnil => .ok 0
  | .vint n => .ok n
  | .vstr s =>
    match goAtoi (goTrimSpace s) with
    | some n => .ok n
    | none => .error "invalid syntax"
  | .vbool _ => .error "convert value type error"
  | .vother _ => .error "convert value type error"

/-- `mysqlReservedWords` (utils.go), verbatim. -/
def mysqlReservedWords : List String :=
  ["ADD", "ALL", "ALTER", "ANALYZE", "AND", "AS", "ASC", "ASENSITIVE",
   "BEFORE", "BETWEEN", "BIGINT", "BLOB", "BOTH", "BY", "CALL", "CASCADE",
   "CASE", "CHANGE", "CHAR", "CHARACTER", "CHECK", "COLLATE", "COLUMN",
   "CONDITION", "CONSTRAINT", "CONTINUE", "CONVERT", "CREATE", "CROSS",
   "CURRENT_DATE", "CURRENT_TIME", "CURRENT_TIMESTAMP", "CURRENT_USER",
   "CURSOR", "DATABASE", "DATABASES", "DAY_HOUR", "DAY_MICROSECOND",
   "DAY_MINUTE", "DAY_SECOND", "DEC", "DECIMAL", "DECLARE", "DEFAULT",
   "DELAYED", "DELETE", "DESC", "DESCRIBE", "DETERMINISTIC", "DISTINCT",
   "DISTINCTROW", "DIV", "DOUBLE", "DROP", "DUAL", "EACH", "ELSE", "ELSEIF",
   "ENCLOSED", "ESCAPED", "EXISTS", "EXIT", "EXPLAIN", "FALSE", "FETCH",
   "FLOAT", "FLOAT4", "FLOAT8", "FOR", "FORCE", "FOREIGN", "FROM", "FULLTEXT",
   "GRANT", "GROUP", "HAVING", "HIGH_PRIORITY", "HOUR_MICROSECOND",
   "HOUR_MINUTE", "HOUR_SECOND", "IF", "IGNORE", "IN", "INDEX", "INFILE",
   "INNER", "INOUT", "INSENSITIVE", "INSERT", "INT", "INT1", "INT2", "INT3",
   "INT4", "INT8", "INTEGER", "INTERVAL", "INTO", "IS", "ITERATE", "JOIN",
   "KEY", "KEYS", "KILL", "LEADING", "LEAVE", "LEFT", "LIKE", "LIMIT", "LINES",
   "LOAD", "LOCALTIME", "LOCALTIMESTAMP", "LOCK", "LONG", "LONGBLOB",
   "LONGTEXT", "LOOP", "LOW_PRIORITY", "MASTER_SSL_VERIFY_SERVER_CERT",
   "MATCH", "MAXVALUE", "MEDIUMBLOB", "MEDIUMINT", "MEDIUMTEXT", "MIDDLEINT",
   "MINUTE_MICROSECOND", "MINUTE_SECOND", "MOD", "MODIFIES", "NATURAL",
   "NOT", "NO_WRITE_TO_BINLOG", "NULL", "NUMERIC", "ON", "OPTIMIZE", "OPTION",
   "OPTIONALLY", "OR", "ORDER", "OUT", "OUTER", "OUTFILE", "PRECISION",
   "PRIMARY", "PROCEDURE", "PURGE", "RANGE", "READ", "READS", "READ_WRITE",
   "REAL", "REFERENCES", "REGEXP", "RELEASE", "RENAME", "REPEAT",
   "REPLACE", "REQUIRE", "RESTRICT", "RETURN", "REVOKE", "RIGHT", "RLIKE",
   "SCHEMA", "SCHEMAS", "SECOND_MICROSECOND", "SELECT", "SENSITIVE", "SEPARATOR",
   "SET", "SHOW", "SMALLINT", "SPATIAL", "SPECIFIC", "SQL", "SQLEXCEPTION",
   "SQLSTATE", "SQLWARNING", "SQL_BIG_RESULT", "SQL_CALC_FOUND_ROWS",
   "SQL_SMALL_RESULT", "SSL", "STARTING", "STRAIGHT_JOIN", "TABLE", "TERMINATED",
   "THEN", "TINYBLOB", "TINYINT", "TINYTEXT", "TO", "TRAILING", "TRIGGER",
   "TRUE", "UNDO", "UNION", "UNIQUE", "UNLOCK", "UNSIGNED", "UPDATE", "USAGE",
   "USE", "USING", "UTC_DATE", "UTC_TIME", "UTC_TIMESTAMP", "VALUES", "VARBINARY",
   "VARCHAR", "VARCHARACTER", "VARYING", "WHEN", "WHERE", "WHILE", "WITH",
   "WRITE", "XOR", "YEAR_MONTH", "ZEROFILL", "RANK"]

/-- ASCII lower-casing of one character, the case `strings.EqualFold`
exercises on the reserved-word list (every list entry is plain ASCII). -/
def charLower (c : Char) : Char :=
  if c.toNat ≥ 65 ∧ c.toNat ≤ 90 then Char.ofNat (c.toNat + 32) else c

/-- Character-list case-insensitive equality. -/
def listFoldEq : List Char → List Char → Bool
  | [], [] => true
  | a :: as, b :: bs => (charLower a == charLower b) && listFoldEq as bs
  | _, _ => false

/-- `strings.EqualFold` restricted to ASCII (sufficient for the reserved
word list and the identifiers of interest). -/
def strEqualFold (a b : String) : Bool :=
  listFoldEq a.data b.data

/-- `IsMySQLReservedWord` (utils.go): linear scan with `strings.EqualFold`
against the whole input string — the input is never split. -/
def IsMySQLReservedWord (word : String) : Bool :=
  mysqlReservedWords.any (fun reservedWord => strEqualFold word reservedWord)

/-- `QuoteReservedWord` (utils.go): wrap the whole word in backticks when
it is reserved, otherwise return it unchanged.  Dotted paths are not
treated specially. -/
def QuoteReservedWord (word : String) : String :=
  if IsMySQLReservedWord word then "`" ++ word ++ "`" else word

/-! ## criteria.go — operator compiler and tag extractor -/

/-- `conditionMapping` (criteria.go): the comparison-operator table of this
revision.  It contains `eq`, `neq`, `gt`, `gte`, `lt`, `lte` and nothing
else (in particular no `in` entry). -/
def conditionMapping : List (String × String) :=
  [("eq", "="), ("neq", "<>"), ("gt", ">"), ("gte", ">="), ("lt", "<"), ("lte", "<=")]

/-- `valueStringOperator` (criteria.go). -/
def valueStringOperator : List String :=
  ["like", "llike", "rlike", "sort"]

/-- `Criteria.buildConditionSpec` (criteria.go): comparison operators give
`"<field> <op> ?"` bound to the raw value; `like`/`llike`/`rlike` give the
lower-case `"<field> like ?"` fragment with a wildcard-wrapped string
(conversion through `AnyToString`, whose failure aborts); `sort` enters the
string branch but matches no case, and every unknown operator leaves the
zero `conditionSpec` (query `nil`).  The Go receiver is unused, so the
function is modelled receiver-free. -/
def Criteria.buildConditionSpec (criteriaOperator field : String) (fieldValue : GoVal) :
    Except String ConditionSpec :=
  match (conditionMapping.lookup criteriaOperator) with
  | some op => .ok { query := .vstr (field ++ " " ++ op ++ " ?"), args := [fieldValue] }
  | none =>
    if valueStringOperator.contains criteriaOperator then
      match AnyToString fieldValue with
      | .error e => .error e
      | .ok value =>
        if criteriaOperator = "like" then
          .ok { query := .vstr (field ++ " like ?"), args := [.vstr ("%" ++ value ++ "%")] }
        else if criteriaOperator = "llike" then
          .ok { query := .vstr (field ++ " like ?"), args := [.vstr ("%" ++ value)] }
        else if criteriaOperator = "rlike" then
          .ok { query := .vstr (field ++ " like ?"), args := [.vstr (value ++ "%")] }
        else
          .ok {}
    else
      .ok {}

/-- The meta-directive switch at the top of `ExtractCriteria`'s loop body:
`per_page`, `page`, `offset`, `limit` coerce to int, `sort` coerces to
string and feeds `Order` token by token; any other operator falls through
unchanged. -/
def applyMetaDirective (criteria : Criteria) (criteriaOperator : String) (fieldValue : GoVal) :
    Except String Criteria :=
  if criteriaOperator = "per_page" then
    (AnyToInt fieldValue).map criteria.PerPage
  else if criteriaOperator = "page" then
    (AnyToInt fieldValue).map criteria.Page
  else if criteriaOperator = "offset" then
    (AnyToInt fieldValue).map criteria.Offset
  else if criteriaOperator = "limit" then
    (AnyToInt fieldValue).map criteria.Limit
  else if criteriaOperator = "sort" then
    (AnyToString fieldValue).map (fun value =>
      (goSplit value ',').foldl
        (fun acc order =>
          acc.Order (goTrimSpace (goTrimRightPlusMinus order)) (goHasDashSuffix order))
        criteria)
  else
    .ok criteria

/-- The per-target fan-out of a multi-field tag: build one spec per target
field, keeping those whose query is non-nil; the first build error aborts. -/
def buildGroupSpec (criteriaOperator : String) (fields : List String)
    (fieldValue : GoVal) : Except String (List ConditionSpec) :=
  fields.foldlM
    (fun acc field => do
      let wc ← Criteria.buildConditionSpec criteriaOperator field fieldValue
      if wc.query ≠ .vnil then pure (acc ++ [wc]) else pure acc)
    []

/-- One iteration of `ExtractCriteria`'s field loop. -/
def extractField (criteria : Criteria) (f : GoField) : Except String Criteria := do
  if f.value.isZero then pure criteria
  else if f.tag = "" then pure criteria
  else
    match goSplit f.tag ':' with
    | [targets, criteriaOperator] => do
      let criteria ← applyMetaDirective criteria criteriaOperator f.value
      let fields := goSplit targets ','
      if fields.length > 1 then do
        let groupSpec ← buildGroupSpec criteriaOperator fields f.value
        if groupSpec.length > 0 then pure (criteria.GroupOr groupSpec) else pure criteria
      else do
        let wc ← Criteria.buildConditionSpec criteriaOperator targets f.value
        if wc.query ≠ .vnil then pure (criteria.Where wc.query wc.args) else pure criteria
    | _ => .error "criteria condition tag error"

/-- `ExtractCriteria` (criteria.go).  A `nil` source returns `(nil, nil)` —
no criteria and no error.  Otherwise the source's reflected kind must be
`Struct` (pointers are never dereferenced), and the field loop runs with
the first error aborting extraction. -/
def ExtractCriteria (source : Option GoSource) : Except String (Option Criteria) :=
  match source with
  | none => .ok none
  | some src =>
    if !src.isStructKind then
      .error "extract source type must be a Struct"
    else
      match src with
      | .gstruct fields => (fields.foldlM extractField {}).map some
      | _ => .error "extract source type must be a Struct"

/-! ## Backend query-handle model (the gorm chain API used by store.go)

A `DB` value models the chainable query handle.  It records two views of
the accumulated state:

* `steps` — the ordered trace of applications performed on the handle
  (which clause-applying call ran, with its payload), the view the
  application-order claims are about;
* `conds` — the accumulated WHERE-expression tree, the view the
  predicate-structure claims are about.

`Where`/`Or`/`Not` accumulate into both views; the remaining calls only
append a step.  Passing one handle to `Where` (gorm `db.Where(db1)`)
embeds the sub-handle's whole accumulated WHERE expression as one
parenthesised AND-ed conjunct, exactly as gorm extracts the sub-query's
`WHERE` clause; the inserted step carries no payload because the embedded
expression is tracked in `conds`.  Scope closures are opaque caller-supplied
transformations; applying one is modelled as an atomic step tagged with the
closure's position in the store's closure list. -/

/-- WHERE-expression trees accumulated by the backend handle. -/
inductive Pred where
  | atom (query : GoVal) (args : List GoVal)
  | conj (a b : Pred)
  | disj (a b : Pred)
  | neg (p : Pred)
  | sub (p : Pred)
deriving DecidableEq, Repr

/-- One application step performed on the backend handle.  For the calls
`Or`, `Not`, `Having` and `Joins`, store.go passes the stored `args` slice
as a single `any` argument (`db.Or(item.query, item.args)` — not spread);
the step records that slice. -/
inductive QueryStep where
  | preloadStep (name : String) (args : List GoVal)
  | closureStep (idx : Nat)
  | omitStep (cols : List String)
  | selectStep (cols : List String)
  | unscopedStep
  | whereStep (query : GoVal) (args : List GoVal)
  | whereSubStep
  | orStep (query : GoVal) (args : List GoVal)
  | notStep (query : GoVal) (args : List GoVal)
  | havingStep (query : GoVal) (args : List GoVal)
  | joinStep (query : String) (args : List GoVal)
  | orderStep (value : String)
  | offsetStep (n : Int)
  | limitStep (n : Int)
  | groupByStep (name : String)
deriving DecidableEq, Repr

/-- The backend query handle. -/
structure DB where
  steps : List QueryStep := []
  conds : Option Pred := none
deriving DecidableEq, Repr

/-- AND a new conjunct onto an optional accumulated expression. -/
def andOnto (acc : Option Pred) (p : Pred) : Pred :=
  match acc with
  | none => p
  | some q => .conj q p

/-- `db.Where(query, args...)`. -/
def DB.whereCond (d : DB) (query : GoVal) (args : List GoVal) : DB :=
  { steps := d.steps ++ [.whereStep query args]
    conds := some (andOnto d.conds (.atom query args)) }

/-- `db.Or(query, arg)`. -/
def DB.orWhere (d : DB) (query : GoVal) (args : List GoVal) : DB :=
  { steps := d.steps ++ [.orStep query args]
    conds := some (match d.conds with
      | none => .atom query args
      | some p => .disj p (.atom query args)) }

/-- `db.Not(query, arg)`. -/
def DB.notWhere (d : DB) (query : GoVal) (args : List GoVal) : DB :=
  { steps := d.steps ++ [.notStep query args]
    conds := some (andOnto d.conds (.neg (.atom query args))) }

/-- `db.Where(db1)`: embed the sub-handle's accumulated WHERE expression
as one AND-ed parenthesised conjunct (gorm lifts the sub-query's `WHERE`
clause expressions; a sub-handle without conditions contributes nothing). -/
def DB.whereSub (d : DB) (d1 : DB) : DB :=
  match d1.conds with
  | none => d
  | some p =>
    { steps := d.steps ++ [.whereSubStep]
      conds := some (andOnto d.conds (.sub p)) }

/-- `db.Preload(name[, args...])` (both arities record name and args; with
no args the recorded list is empty). -/
def DB.preload (d : DB) (name : String) (args : List GoVal) : DB :=
  { d with steps := d.steps ++ [.preloadStep name args] }

/-- `db.Omit(cols...)`. -/
def DB.omit (d : DB) (cols : List String) : DB :=
  { d with steps := d.steps ++ [.omitStep cols] }

/-- `db.Select(cols)`. -/
def DB.selectCols (d : DB) (cols : List String) : DB :=
  { d with steps := d.steps ++ [.selectStep cols] }

/-- `db.Unscoped()`. -/
def DB.unscoped (d : DB) : DB :=
  { d with steps := d.steps ++ [.unscopedStep] }

/-- Applying the scope closure at position `idx` of the store's list. -/
def DB.applyClosure (d : DB) (idx : Nat) : DB :=
  { d with steps := d.steps ++ [.closureStep idx] }

/-- `db.Having(query, arg)`. -/
def DB.having (d : DB) (query : GoVal) (args : List GoVal) : DB :=
  { d with steps := d.steps ++ [.havingStep query args] }

/-- `db.Joins(query, arg)`. -/
def DB.joins (d : DB) (query : String) (args : List GoVal) : DB :=
  { d with steps := d.steps ++ [.joinStep query args] }

/-- `db.Order(value)`. -/
def DB.order (d : DB) (value : String) : DB :=
  { d with steps := d.steps ++ [.orderStep value] }

/-- `db.Offset(n)`. -/
def DB.offset (d : DB) (n : Int) : DB :=
  { d with steps := d.steps ++ [.offsetStep n] }

/-- `db.Limit(n)`. -/
def DB.limit (d : DB) (n : Int) : DB :=
  { d with steps := d.steps ++ [.limitStep n] }

/-- `db.Group(name)` — available on the handle; `present` never calls it. -/
def DB.groupBy (d : DB) (name : String) : DB :=
  { d with steps := d.steps ++ [.groupByStep name] }

/-! ## store.go — the generic store -/

/-- `GormStore` (store.go): the transient builder state.  The owning
connection (`db`) and the mutex are not part of the modelled state; the
bound transaction handle is an opaque token, and scope closures are
recorded by opaque indices. -/
structure GormStore where
  tx : Option Nat := none
  preloads : List PreloadEntry := []
  columns : List String := []
  hidden : List String := []
  scopeClosures : List Nat := []
  cloned : Bool := false
  unscoped : Bool := false
deriving DecidableEq, Repr

/-- `GormStore.reset` (store.go): clear columns, hidden, preloads, scope
closures, the unscoped flag and the bound transaction (the `cloned` flag
and the connection survive). -/
def GormStore.reset (r : GormStore) : GormStore :=
  { r with columns := [], hidden := [], preloads := [], scopeClosures := [],
           unscoped := false, tx := none }

/-- The criteria part of `present`: OR-groups, then where-, or-, not-,
having- and join-conditions, then orders, then offset and limit.

For a multi-member OR-group the code builds a sub-handle
`db1 := db.Where(group[0]...)` and then, inside
`for i, spec := range group`, chains `db1 = db1.Or(spec...)` only when
`i > 1`, i.e. over `group.drop 2` — member 0 is already in `db1` and
member 1 is skipped by the guard — before AND-ing the sub-handle back with
`db.Where(db1)`.

`GetOffset()`/`limit`: the offset is applied only when positive, and the
limit whenever `limit > 0` or the offset is positive. -/
def applyCriteria (d : DB) (c : Criteria) : DB :=
  let d := c.groupOrConditions.foldl
    (fun d group =>
      match group with
      | [] => d
      | [single] => d.whereCond single.query single.args
      | g0 :: _ :: rest =>
        let d1 := d.whereCond g0.query g0.args
        let d1 := rest.foldl (fun acc spec => acc.orWhere spec.query spec.args) d1
        d.whereSub d1)
    d
  let d := c.whereConditions.foldl (fun d item => d.whereCond item.query item.args) d
  let d := c.orConditions.foldl (fun d item => d.orWhere item.query item.args) d
  let d := c.notConditions.foldl (fun d item => d.notWhere item.query item.args) d
  let d := c.havingConditions.foldl (fun d item => d.having item.query item.args) d
  let d := c.joinConditions.foldl (fun d item => d.joins item.query item.args) d
  let d := c.orders.foldl (fun d item => d.order item) d
  let d := if c.GetOffset > 0 then d.offset c.GetOffset else d
  let d := if c.limit > 0 ∨ c.GetOffset > 0 then d.limit c.limit else d
  d

/-- The preload block of `present` (store.go): starting from the base
handle, when the store has preloads, first merge any criteria preloads
into the store's (mutating the receiver), then apply each preload with a
non-empty name.  Returns the handle and the possibly mutated store. -/
def preloadPhase (r : GormStore) (criteria : Option Criteria) : DB × GormStore :=
  let d : DB := {}
  if r.preloads ≠ [] then
    let r :=
      match criteria with
      | some c => if c.preloads ≠ [] then { r with preloads := r.preloads ++ c.preloads } else r
      | none => r
    (r.preloads.foldl
      (fun d p => if p.name = "" then d else d.preload p.name p.args) d, r)
  else (d, r)

/-- The scope-closure block of `present`. -/
def closuresPhase (r : GormStore) (d : DB) : DB :=
  (List.range r.scopeClosures.length).foldl (fun d idx => d.applyClosure idx) d

/-- The hidden-columns block of `present`. -/
def omitPhase (r : GormStore) (d : DB) : DB :=
  if r.hidden.length > 0 then d.omit r.hidden else d

/-- The selected-columns block of `present`. -/
def selectPhase (r : GormStore) (d : DB) : DB :=
  if r.columns.length > 0 then d.selectCols r.columns else d

/-- The soft-delete-visibility block of `present`. -/
def unscopedPhase (r : GormStore) (d : DB) : DB :=
  if r.unscoped then d.unscoped else d

/-- The criteria block of `present`. -/
def criteriaPhase (criteria : Option Criteria) (d : DB) : DB :=
  match criteria with
  | some c => applyCriteria d c
  | none => d

/-- `GormStore.present` (store.go): compile the store state and an optional
`Criteria` into a query handle.  Returns the handle together with the
store state after the call (`present` mutates the receiver's preloads).
Application order: preloads, scope closures, hidden (Omit), columns
(Select), unscoped, then the criteria via `applyCriteria`.  The criteria's
`group` field is never read. -/
def GormStore.present (r : GormStore) (criteria : Option Criteria) : DB × GormStore :=
  let pr := preloadPhase r criteria
  (criteriaPhase criteria
    (unscopedPhase pr.2 (selectPhase pr.2 (omitPhase pr.2 (closuresPhase pr.2 pr.1)))),
   pr.2)

/-- `copier.Copy(&c, criteria)` as called by `Count`, `Sum` and `Avg`
(github.com/jinzhu/copier v0.4.0).  `copier` assigns through reflection and
can only set exported, settable destination fields; every field of
`Criteria` is unexported, so for a non-nil source nothing is copied, the
destination keeps its zero value and the returned error is nil.  For a nil
`*Criteria` source, `copier`'s indirection finds an invalid value and
returns its invalid-source error. -/
def copierCopyCriteria (criteria : Option Criteria) : Except String Criteria :=
  match criteria with
  | none => .error "copy source is invalid"
  | some _ => .ok {}

/-- The query handle `Count` executes on (store.go): clone via `copier`,
clear order and limit/offset on the clone, then `present` with the clone.
`Sum` and `Avg` build their handle the same way (their extra
`Select(...)` aggregate projection is applied after `present` and is not
part of the presented state modelled here). -/
def GormStore.countPresented (r : GormStore) (criteria : Option Criteria) :
    Except String (DB × GormStore) :=
  match copierCopyCriteria criteria with
  | .error e => .error e
  | .ok c => .ok (r.present (some c.unsetOrder.unsetLimit))

/-! ### Post-execution builder state of each terminal operation

Each `opState` function returns the `GormStore` value as it stands when
the terminal call returns: the state `present` left behind, then `reset`
for the operations that call it.  `Save` (store.go line 136) returns
without calling `reset`; `Count`, `Sum` and `Avg` never call `reset`
either, and when `copier` fails (nil criteria) they return before even
calling `present`. -/

/-- `Insert`: no `present`, then `reset`. -/
def GormStore.insertState (r : GormStore) : GormStore := r.reset

/-- `Create` / `Creates` / `CreateInBatches` / `Delete` / `DeleteById` /
`UpdateById` / `UpdatesById` / `FindByID` / `FindByIDs` (nonempty ids):
`present` with nil criteria, then `reset`. -/
def GormStore.createState (r : GormStore) : GormStore := (r.present none).2.reset

/-- `Deletes` / `Updates` / `Update` / `First` / `Find` / `FindInBatches` /
`Pluck`: `present` with the given criteria, then `reset`. -/
def GormStore.findState (r : GormStore) (criteria : Option Criteria) : GormStore :=
  (r.present criteria).2.reset

/-- `FindByIDs` with an empty id list returns its error before `present`
and `reset` run. -/
def GormStore.findByIDsState (r : GormStore) (ids : List Int) : GormStore :=
  if ids.length < 1 then r else r.createState

/-- `Save`: `present` with nil criteria and no `reset`. -/
def GormStore.saveState (r : GormStore) : GormStore := (r.present none).2

/-- `Count` / `Sum` / `Avg`: on `copier` failure the store is untouched;
otherwise the state `present` left with the stripped clone, no `reset`. -/
def GormStore.countState (r : GormStore) (criteria : Option Criteria) : GormStore :=
  match r.countPresented criteria with
  | .error _ => r
  | .ok p => p.2

/-- `Paginate`: runs `Count` (no reset) and `Find` (reset) on the same
receiver; modelled sequentially, the store ends in the reset state that
`Find` leaves. -/
def GormStore.paginateState (r : GormStore) (criteria : Criteria) : GormStore :=
  (r.countState (some criteria)).findState (some criteria)

/-! ## The application trace of `present`, segment by segment

`presentSteps` below restates the step trace of `present` as an explicit
concatenation of per-phase segments; `present_steps_decomp` proves the
restatement exact.  The segments make the fixed application order, and the
absence of any GROUP BY application, directly visible. -/

/-- The preload list `present` iterates (after merging criteria preloads
into a non-empty store preload list). -/
def mergedPreloads (r : GormStore) (criteria : Option Criteria) : List PreloadEntry :=
  match criteria with
  | some c => if c.preloads ≠ [] then r.preloads ++ c.preloads else r.preloads
  | none => r.preloads

/-- Steps of the preload phase. -/
def segPreloads (r : GormStore) (criteria : Option Criteria) : List QueryStep :=
  if r.preloads ≠ [] then
    (mergedPreloads r criteria).filterMap
      (fun p => if p.name = "" then none else some (.preloadStep p.name p.args))
  else []

/-- Steps of the scope-closure phase. -/
def segClosures (r : GormStore) : List QueryStep :=
  (List.range r.scopeClosures.length).map .closureStep

/-- Step of the hidden-columns phase. -/
def segOmit (r : GormStore) : List QueryStep :=
  if r.hidden.length > 0 then [.omitStep r.hidden] else []

/-- Step of the selected-columns phase. -/
def segSelect (r : GormStore) : List QueryStep :=
  if r.columns.length > 0 then [.selectStep r.columns] else []

/-- Step of the soft-delete-visibility phase. -/
def segUnscoped (r : GormStore) : List QueryStep :=
  if r.unscoped then [.unscopedStep] else []

/-- Steps of the OR-group phase: an empty group contributes nothing, a
singleton group one plain where step, a larger group one sub-handle
embedding step. -/
def segGroupOr (c : Criteria) : List QueryStep :=
  c.groupOrConditions.filterMap
    (fun group =>
      match group with
      | [] => none
      | [single] => some (.whereStep single.query single.args)
      | _ => some .whereSubStep)

/-- Steps of the where-condition phase. -/
def segWhere (c : Criteria) : List QueryStep :=
  c.whereConditions.map (fun i => .whereStep i.query i.args)

/-- Steps of the or-condition phase. -/
def segOr (c : Criteria) : List QueryStep :=
  c.orConditions.map (fun i => .orStep i.query i.args)

/-- Steps of the not-condition phase. -/
def segNot (c : Criteria) : List QueryStep :=
  c.notConditions.map (fun i => .notStep i.query i.args)

/-- Steps of the having phase. -/
def segHaving (c : Criteria) : List QueryStep :=
  c.havingConditions.map (fun i => .havingStep i.query i.args)

/-- Steps of the join phase. -/
def segJoins (c : Criteria) : List QueryStep :=
  c.joinConditions.map (fun i => .joinStep i.query i.args)

/-- Steps of the ordering phase. -/
def segOrders (c : Criteria) : List QueryStep :=
  c.orders.map .orderStep

/-- Step of the offset phase. -/
def segOffset (c : Criteria) : List QueryStep :=
  if c.GetOffset > 0 then [.offsetStep c.GetOffset] else []

/-- Step of the limit phase. -/
def segLimit (c : Criteria) : List QueryStep :=
  if c.limit > 0 ∨ c.GetOffset > 0 then [.limitStep c.limit] else []

/-- Steps of the whole criteria phase. -/
def segCriteria (criteria : Option Criteria) : List QueryStep :=
  match criteria with
  | none => []
  | some c =>
    segGroupOr c ++ segWhere c ++ segOr c ++ segNot c ++ segHaving c ++ segJoins c
      ++ segOrders c ++ segOffset c ++ segLimit c

/-- The full application trace, phase by phase. -/
def presentSteps (r : GormStore) (criteria : Option Criteria) : List QueryStep :=
  segPreloads r criteria ++ segClosures r ++ segOmit r ++ segSelect r ++ segUnscoped r
    ++ segCriteria criteria

/-- Is this step a GROUP BY application? -/
def QueryStep.isGroupByStep : QueryStep → Bool
  | .groupByStep _ => true
  | _ => false

/-- Evaluate an accumulated WHERE expression over a row, given an
interpretation of atomic fragments (a scenario-supplied semantics for the
bound SQL fragments). -/
def evalPred (atomEval : GoVal → List GoVal → Int → Bool) : Pred → Int → Bool
  | .atom q a, row => atomEval q a row
  | .conj p q, row => evalPred atomEval p row && evalPred atomEval q row
  | .disj p q, row => evalPred atomEval p row || evalPred atomEval q row
  | .neg p, row => !(evalPred atomEval p row)
  | .sub p, row => evalPred atomEval p row

/-- Number of table rows matched by the handle's accumulated WHERE
expression (no conditions matches every row). -/
def DB.matchCount (d : DB) (atomEval : GoVal → List GoVal → Int → Bool)
    (table : List Int) : Nat :=
  (table.filter (fun row =>
    match d.conds with
    | none => true
    | some p => evalPred atomEval p row)).length

/-- The transient fields cleared, everything else as in `r` — the state
`reset` produces from any state reachable after `present`. -/
def clearedOf (r : GormStore) : GormStore :=
  { tx := none, preloads := [], columns := [], hidden := [], scopeClosures := [],
    cloned := r.cloned, unscoped := false }

/-! ### Concrete scenario inputs used by the claim checks -/

/-- A two-member OR-group: `a = 1` OR `b = 2` expected. -/
def twoMemberGroupCrit : Criteria :=
  { groupOrConditions := [[⟨.vstr "a = ?", [.vint 1]⟩, ⟨.vstr "b = ?", [.vint 2]⟩]] }

/-- A three-member OR-group: `a = 1` OR `b = 2` OR `c = 3` expected. -/
def threeMemberGroupCrit : Criteria :=
  { groupOrConditions :=
      [[⟨.vstr "a = ?", [.vint 1]⟩, ⟨.vstr "b = ?", [.vint 2]⟩, ⟨.vstr "c = ?", [.vint 3]⟩]] }

/-- A store with one scope closure, for the application-order check. -/
def closureStore : GormStore := { scopeClosures := [0] }

/-- A criteria with a GROUP BY expression and one where-condition. -/
def groupByCrit : Criteria :=
  { whereConditions := [⟨.vstr "a = ?", []⟩], group := "name" }

/-- The aggregate scenario criteria: filter `age > 5`, ordered, limited. -/
def aggScenarioCrit : Criteria :=
  ((NewCriteria.Where (.vstr "age > ?") [.vint 5]).Order "name" false).Limit 5

/-- Interpretation of the scenario's only fragment: `age > ?` bound to `n`
holds on rows greater than `n`; anything else matches. -/
def ageAtomEval : GoVal → List GoVal → Int → Bool
  | .vstr "age > ?", [.vint n], row => n < row
  | _, _, _ => true

/-- Twenty rows with ages 1..20; fifteen of them satisfy `age > 5`. -/
def ageTable : List Int := (List.range 20).map (fun i => (i : Int) + 1)

/-- A store with every transient field populated. -/
def populatedStore : GormStore :=
  { tx := some 1, preloads := [⟨"User", []⟩], columns := ["id"], hidden := ["secret"],
    scopeClosures := [0], cloned := false, unscoped := true }

lemma foldl_preload_steps (l : List PreloadEntry) (d : DB) :
    (l.foldl (fun d p => if p.name = "" then d else d.preload p.name p.args) d).steps
      = d.steps ++ l.filterMap
          (fun p => if p.name = "" then none else some (.preloadStep p.name p.args)) := by
  induction l generalizing d with
  | nil => simp
  | cons p l ih =>
    by_cases h : p.name = "" <;>
      · rw [List.foldl_cons, ih]
        simp [h, DB.preload]

lemma foldl_closure_steps (l : List Nat) (d : DB) :
    (l.foldl (fun d idx => d.applyClosure idx) d).steps = d.steps ++ l.map .closureStep := by
  induction l generalizing d with
  | nil => simp
  | cons i l ih => rw [List.foldl_cons, ih]; simp [DB.applyClosure]

lemma foldl_where_steps (l : List ConditionSpec) (d : DB) :
    (l.foldl (fun d item => d.whereCond item.query item.args) d).steps
      = d.steps ++ l.map (fun i => .whereStep i.query i.args) := by
  induction l generalizing d with
  | nil => simp
  | cons i l ih => rw [List.foldl_cons, ih]; simp [DB.whereCond]

lemma foldl_or_steps (l : List ConditionSpec) (d : DB) :
    (l.foldl (fun d item => d.orWhere item.query item.args) d).steps
      = d.steps ++ l.map (fun i => .orStep i.query i.args) := by
  induction l generalizing d with
  | nil => simp
  | cons i l ih => rw [List.foldl_cons, ih]; simp [DB.orWhere]

lemma foldl_not_steps (l : List ConditionSpec) (d : DB) :
    (l.foldl (fun d item => d.notWhere item.query item.args) d).steps
      = d.steps ++ l.map (fun i => .notStep i.query i.args) := by
  induction l generalizing d with
  | nil => simp
  | cons i l ih => rw [List.foldl_cons, ih]; simp [DB.notWhere]

lemma foldl_having_steps (l : List HavingSpec) (d : DB) :
    (l.foldl (fun d item => d.having item.query item.args) d).steps
      = d.steps ++ l.map (fun i => .havingStep i.query i.args) := by
  induction l generalizing d with
  | nil => simp
  | cons i l ih => rw [List.foldl_cons, ih]; simp [DB.having]

lemma foldl_joins_steps (l : List JoinSpec) (d : DB) :
    (l.foldl (fun d item => d.joins item.query item.args) d).steps
      = d.steps ++ l.map (fun i => .joinStep i.query i.args) := by
  induction l generalizing d with
  | nil => simp
  | cons i l ih => rw [List.foldl_cons, ih]; simp [DB.joins]

lemma foldl_order_steps (l : List String) (d : DB) :
    (l.foldl (fun d item => d.order item) d).steps = d.steps ++ l.map .orderStep := by
  induction l generalizing d with
  | nil => simp
  | cons i l ih => rw [List.foldl_cons, ih]; simp [DB.order]

lemma orFold_conds_some (l : List ConditionSpec) (d : DB) (h : d.conds.isSome) :
    ((l.foldl (fun acc spec => acc.orWhere spec.query spec.args) d).conds).isSome := by
  induction l generalizing d with
  | nil => exact h
  | cons i l ih => exact ih _ (by simp [DB.orWhere])

lemma foldl_groupOr_steps (l : List (List ConditionSpec)) (d : DB) :
    ((l.foldl
      (fun d group =>
        match group with
        | [] => d
        | [single] => d.whereCond single.query single.args
        | g0 :: _ :: rest =>
          let d1 := d.whereCond g0.query g0.args
          let d1 := rest.foldl (fun acc spec => acc.orWhere spec.query spec.args) d1
          d.whereSub d1)
      d).steps)
      = d.steps ++ l.filterMap
          (fun group =>
            match group with
            | [] => none
            | [single] => some (.whereStep single.query single.args)
            | _ => some .whereSubStep) := by
  induction l generalizing d with
  | nil => simp
  | cons g l ih =>
    match g with
    | [] =>
      rw [List.foldl_cons, ih]
      simp
    | [single] =>
      rw [List.foldl_cons, ih]
      simp [DB.whereCond]
    | g0 :: g1 :: rest =>
      have hsome : ((rest.foldl (fun acc spec => acc.orWhere spec.query spec.args)
          (d.whereCond g0.query g0.args)).conds).isSome :=
        orFold_conds_some _ _ (by simp [DB.whereCond])
      rw [Option.isSome_iff_exists] at hsome
      obtain ⟨p, hp⟩ := hsome
      simp only [List.foldl_cons, List.filterMap_cons]
      rw [ih]
      simp [DB.whereSub, hp]

set_option maxHeartbeats 1000000 in
lemma applyCriteria_steps (d : DB) (c : Criteria) :
    (applyCriteria d c).steps
      = d.steps ++ (segGroupOr c ++ segWhere c ++ segOr c ++ segNot c ++ segHaving c
          ++ segJoins c ++ segOrders c ++ segOffset c ++ segLimit c) := by
  unfold applyCriteria
  split_ifs with h1 h2 h3
  · simp only [DB.limit, DB.offset, foldl_order_steps, foldl_joins_steps,
      foldl_having_steps, foldl_not_steps, foldl_or_steps, foldl_where_steps,
      foldl_groupOr_steps]
    simp [segGroupOr, segWhere, segOr, segNot, segHaving, segJoins, segOrders,
      segOffset, segLimit, h1, h2, List.append_assoc]
  · exact absurd (Or.inr h1) h2
  · rcases h3 with h | h
    · simp only [DB.limit, foldl_order_steps, foldl_joins_steps,
        foldl_having_steps, foldl_not_steps, foldl_or_steps, foldl_where_steps,
        foldl_groupOr_steps]
      simp [segGroupOr, segWhere, segOr, segNot, segHaving, segJoins, segOrders,
        segOffset, segLimit, h1, h, List.append_assoc]
    · exact absurd h h1
  · simp only [foldl_order_steps, foldl_joins_steps,
      foldl_having_steps, foldl_not_steps, foldl_or_steps, foldl_where_steps,
      foldl_groupOr_steps]
    simp only [not_or] at h3
    simp [segGroupOr, segWhere, segOr, segNot, segHaving, segJoins, segOrders,
      segOffset, segLimit, h1, h3, List.append_assoc]

lemma preloadPhase_fst_steps (r : GormStore) (criteria : Option Criteria) :
    (preloadPhase r criteria).1.steps = segPreloads r criteria := by
  unfold preloadPhase segPreloads mergedPreloads
  by_cases hp : r.preloads = [] <;> cases criteria <;>
    split_ifs <;> simp_all [foldl_preload_steps] <;> split_ifs <;> rfl

lemma preloadPhase_snd (r : GormStore) (criteria : Option Criteria) :
    (preloadPhase r criteria).2
      = if r.preloads ≠ [] then { r with preloads := mergedPreloads r criteria } else r := by
  unfold preloadPhase mergedPreloads
  by_cases hp : r.preloads = [] <;> cases criteria <;> split_ifs <;> simp_all <;>
    split_ifs <;> rfl

lemma preloadPhase_snd_closures (r : GormStore) (criteria : Option Criteria) :
    (preloadPhase r criteria).2.scopeClosures = r.scopeClosures := by
  rw [preloadPhase_snd]; split_ifs <;> rfl

lemma preloadPhase_snd_hidden (r : GormStore) (criteria : Option Criteria) :
    (preloadPhase r criteria).2.hidden = r.hidden := by
  rw [preloadPhase_snd]; split_ifs <;> rfl

lemma preloadPhase_snd_columns (r : GormStore) (criteria : Option Criteria) :
    (preloadPhase r criteria).2.columns = r.columns := by
  rw [preloadPhase_snd]; split_ifs <;> rfl

lemma preloadPhase_snd_unscoped (r : GormStore) (criteria : Option Criteria) :
    (preloadPhase r criteria).2.unscoped = r.unscoped := by
  rw [preloadPhase_snd]; split_ifs <;> rfl

lemma closuresPhase_steps (r : GormStore) (d : DB) :
    (closuresPhase r d).steps = d.steps ++ segClosures r := by
  unfold closuresPhase segClosures
  exact foldl_closure_steps _ _

lemma omitPhase_steps (r : GormStore) (d : DB) :
    (omitPhase r d).steps = d.steps ++ segOmit r := by
  unfold omitPhase segOmit
  split_ifs <;> simp [DB.omit]

lemma selectPhase_steps (r : GormStore) (d : DB) :
    (selectPhase r d).steps = d.steps ++ segSelect r := by
  unfold selectPhase segSelect
  split_ifs <;> simp [DB.selectCols]

lemma unscopedPhase_steps (r : GormStore) (d : DB) :
    (unscopedPhase r d).steps = d.steps ++ segUnscoped r := by
  unfold unscopedPhase segUnscoped
  split_ifs <;> simp [DB.unscoped]

lemma criteriaPhase_steps (criteria : Option Criteria) (d : DB) :
    (criteriaPhase criteria d).steps = d.steps ++ segCriteria criteria := by
  unfold criteriaPhase segCriteria
  cases criteria with
  | none => simp
  | some c => rw [applyCriteria_steps]

/-- Segments computed over the store after the preload phase coincide with
those over the original store (the mutation touches only preloads). -/
lemma segs_after_preload (r : GormStore) (criteria : Option Criteria) :
    segClosures (preloadPhase r criteria).2 = segClosures r
      ∧ segOmit (preloadPhase r criteria).2 = segOmit r
      ∧ segSelect (preloadPhase r criteria).2 = segSelect r
      ∧ segUnscoped (preloadPhase r criteria).2 = segUnscoped r := by
  refine ⟨?_, ?_, ?_, ?_⟩ <;>
    simp [segClosures, segOmit, segSelect, segUnscoped, preloadPhase_snd_closures,
      preloadPhase_snd_hidden, preloadPhase_snd_columns, preloadPhase_snd_unscoped]

/-- `present`'s step trace is exactly the phase-by-phase concatenation. -/
lemma present_steps_decomp (r : GormStore) (criteria : Option Criteria) :
    (r.present criteria).1.steps = presentSteps r criteria := by
  obtain ⟨h1, h2, h3, h4⟩ := segs_after_preload r criteria
  unfold GormStore.present presentSteps
  rw [criteriaPhase_steps, unscopedPhase_steps, selectPhase_steps, omitPhase_steps,
    closuresPhase_steps, preloadPhase_fst_steps, h1, h2, h3, h4]

lemma segPreloads_shape (r : GormStore) (criteria : Option Criteria) (s : QueryStep)
    (hs : s ∈ segPreloads r criteria) : ∃ name args, s = .preloadStep name args := by
  simp only [segPreloads] at hs
  split_ifs at hs
  · simp only [List.mem_filterMap] at hs
    obtain ⟨p, _, hsome⟩ := hs
    by_cases h : p.name = ""
    · simp [h] at hsome
    · simp [h] at hsome
      exact ⟨p.name, p.args, hsome.symm⟩
  · simp at hs

lemma segGroupOr_shape (c : Criteria) (s : QueryStep) (hs : s ∈ segGroupOr c) :
    (∃ q a, s = .whereStep q a) ∨ s = .whereSubStep := by
  simp only [segGroupOr, List.mem_filterMap] at hs
  obtain ⟨g, _, hsome⟩ := hs
  rcases g with _ | ⟨g0, _ | ⟨g1, rest⟩⟩
  · simp at hsome
  · simp only [Option.some.injEq] at hsome
    exact Or.inl ⟨g0.query, g0.args, hsome.symm⟩
  · simp only [Option.some.injEq] at hsome
    exact Or.inr hsome.symm

lemma not_groupBy_of_presentSteps (r : GormStore) (criteria : Option Criteria) :
    ∀ s ∈ presentSteps r criteria, s.isGroupByStep = false := by
  intro s hs
  simp only [presentSteps, List.mem_append] at hs
  rcases hs with ((((hp | hc) | ho) | hse) | hu) | hcr
  · obtain ⟨name, args, rfl⟩ := segPreloads_shape r criteria s hp
    rfl
  · simp only [segClosures, List.mem_map] at hc
    obtain ⟨i, _, rfl⟩ := hc
    rfl
  · simp only [segOmit] at ho
    split_ifs at ho <;> simp_all
    subst ho; rfl
  · simp only [segSelect] at hse
    split_ifs at hse <;> simp_all
    subst hse; rfl
  · simp only [segUnscoped] at hu
    split_ifs at hu <;> simp_all
    subst hu; rfl
  · cases criteria with
    | none => simp [segCriteria] at hcr
    | some c =>
      simp only [segCriteria, List.mem_append] at hcr
      rcases hcr with ((((((((hg | hw) | hor) | hn) | hh) | hj) | hord) | hoff) | hlim)
      · rcases segGroupOr_shape c s hg with ⟨q, a, rfl⟩ | rfl <;> rfl
      · simp only [segWhere, List.mem_map] at hw
        obtain ⟨i, _, rfl⟩ := hw; rfl
      · simp only [segOr, List.mem_map] at hor
        obtain ⟨i, _, rfl⟩ := hor; rfl
      · simp only [segNot, List.mem_map] at hn
        obtain ⟨i, _, rfl⟩ := hn; rfl
      · simp only [segHaving, List.mem_map] at hh
        obtain ⟨i, _, rfl⟩ := hh; rfl
      · simp only [segJoins, List.mem_map] at hj
        obtain ⟨i, _, rfl⟩ := hj; rfl
      · simp only [segOrders, List.mem_map] at hord
        obtain ⟨i, _, rfl⟩ := hord; rfl
      · simp only [segOffset] at hoff
        split_ifs at hoff <;> simp_all
        subst hoff; rfl
      · simp only [segLimit] at hlim
        split_ifs at hlim <;> simp_all
        subst hlim; rfl

lemma offsetStep_mem_presentSteps_iff (r : GormStore) (c : Criteria) (n : Int) :
    (QueryStep.offsetStep n ∈ presentSteps r (some c))
      ↔ (0 < c.GetOffset ∧ n = c.GetOffset) := by
  constructor
  · intro hs
    simp only [presentSteps, List.mem_append] at hs
    rcases hs with ((((hp | hc) | ho) | hse) | hu) | hcr
    · obtain ⟨name, args, h⟩ := segPreloads_shape r (some c) _ hp
      cases h
    · simp [segClosures, List.mem_map] at hc
    · simp only [segOmit] at ho
      split_ifs at ho <;> simp_all
    · simp only [segSelect] at hse
      split_ifs at hse <;> simp_all
    · simp only [segUnscoped] at hu
      split_ifs at hu <;> simp_all
    · simp only [segCriteria, List.mem_append] at hcr
      rcases hcr with ((((((((hg | hw) | hor) | hn) | hh) | hj) | hord) | hoff) | hlim)
      · rcases segGroupOr_shape c _ hg with ⟨q, a, h⟩ | h <;> cases h
      · simp [segWhere, List.mem_map] at hw
      · simp [segOr, List.mem_map] at hor
      · simp [segNot, List.mem_map] at hn
      · simp [segHaving, List.mem_map] at hh
      · simp [segJoins, List.mem_map] at hj
      · simp [segOrders, List.mem_map] at hord
      · simp only [segOffset] at hoff
        split_ifs at hoff with h <;> simp_all
      · simp only [segLimit] at hlim
        split_ifs at hlim <;> simp_all
  · rintro ⟨h, rfl⟩
    simp [presentSteps, segCriteria, List.mem_append, segOffset, h]

lemma limitStep_mem_presentSteps_iff (r : GormStore) (c : Criteria) (n : Int) :
    (QueryStep.limitStep n ∈ presentSteps r (some c))
      ↔ ((0 < c.limit ∨ 0 < c.GetOffset) ∧ n = c.limit) := by
  constructor
  · intro hs
    simp only [presentSteps, List.mem_append] at hs
    rcases hs with ((((hp | hc) | ho) | hse) | hu) | hcr
    · obtain ⟨name, args, h⟩ := segPreloads_shape r (some c) _ hp
      cases h
    · simp [segClosures, List.mem_map] at hc
    · simp only [segOmit] at ho
      split_ifs at ho <;> simp_all
    · simp only [segSelect] at hse
      split_ifs at hse <;> simp_all
    · simp only [segUnscoped] at hu
      split_ifs at hu <;> simp_all
    · simp only [segCriteria, List.mem_append] at hcr
      rcases hcr with ((((((((hg | hw) | hor) | hn) | hh) | hj) | hord) | hoff) | hlim)
      · rcases segGroupOr_shape c _ hg with ⟨q, a, h⟩ | h <;> cases h
      · simp [segWhere, List.mem_map] at hw
      · simp [segOr, List.mem_map] at hor
      · simp [segNot, List.mem_map] at hn
      · simp [segHaving, List.mem_map] at hh
      · simp [segJoins, List.mem_map] at hj
      · simp [segOrders, List.mem_map] at hord
      · simp only [segOffset] at hoff
        split_ifs at hoff <;> simp_all
      · simp only [segLimit] at hlim
        split_ifs at hlim with h <;> simp_all
  · rintro ⟨h, rfl⟩
    simp [presentSteps, segCriteria, List.mem_append, segLimit, h]

/-! ## Claim theorems -/

set_option maxRecDepth 40000

/-- C1 (code bug exhibit): evaluating `present` at a two-member OR-group
shows the compiled WHERE expression contains only the first member — the
`i > 1` guard in the group loop skips index 1, so the second member never
joins the OR-chain; with three members the result is
`(a = 1 OR c = 3)`, again missing the second member, where the claim
requires `(cond1 OR cond2 [OR cond3])`. -/
theorem c1_group_or_skips_second_member :
    (({} : GormStore).present (some twoMemberGroupCrit)).1.conds
        = some (.sub (.atom (.vstr "a = ?") [.vint 1]))
      ∧ (({} : GormStore).present (some threeMemberGroupCrit)).1.conds
        = some (.sub (.disj (.atom (.vstr "a = ?") [.vint 1])
            (.atom (.vstr "c = ?") [.vint 3]))) := by
  decide

/-- C7 (code bug exhibit): `QuoteReservedWord` quotes only a whole reserved
word and never splits a dotted identifier path, so `"users.order"` and
`"schema.order.key"` pass through unchanged although the claim (and
utils_test.go) require per-segment quoting; plain reserved words are
quoted and already-quoted input is unchanged. -/
theorem c7_no_dot_splitting :
    QuoteReservedWord "order" = "`order`"
    ∧ QuoteReservedWord "users.order" = "users.order"
    ∧ QuoteReservedWord "schema.order.key" = "schema.order.key"
    ∧ QuoteReservedWord "username" = "username"
    ∧ QuoteReservedWord "`order`" = "`order`" := by
  decide

/-- C8: pagination arithmetic of `Criteria`: `Page` clamps below-1 pages to
1 (so `GetPage` is at least 1 afterwards), `PerPage` sets the limit,
`GetOffset` prefers a positive explicit offset and otherwise derives
`limit * (page - 1)`; with `Page 3, PerPage 10` the offset is 20, and an
explicit `Offset 7` wins regardless of the rest of the criteria. -/
theorem c8_pagination_arithmetic :
    (∀ (c : Criteria) (p : Int), (c.Page p).page = if p < 1 then 1 else p)
    ∧ (∀ (c : Criteria) (p : Int), 1 ≤ (c.Page p).GetPage)
    ∧ (∀ (c : Criteria) (n : Int), (c.PerPage n).GetLimit = n)
    ∧ (∀ c : Criteria,
        c.GetOffset = if c.offset > 0 then c.offset else c.GetLimit * (c.GetPage - 1))
    ∧ ((NewCriteria.Page 3).PerPage 10).GetOffset = 20
    ∧ (∀ c : Criteria, (c.Offset 7).GetOffset = 7) := by
  refine ⟨?_, ?_, ?_, ?_, ?_, ?_⟩
  · intro c p; rfl
  · intro c p
    simp only [Criteria.Page, Criteria.GetPage]
    split_ifs with h <;> omega
  · intro c n; rfl
  · intro c; rfl
  · decide
  · intro c
    simp [Criteria.Offset, Criteria.GetOffset]

/-- C10: `WhereIn` appends the single AND-ed condition
`field ++ " NOT IN ?"` with the values slice as its sole bound argument,
`WhereNotIn` appends `field ++ " IN ?"` — the two helpers emit each
other's expected SQL — and neither touches any other `Criteria` field
(full-record equality). -/
theorem c10_where_in_where_not_in_swapped :
    ∀ (c : Criteria) (f : String) (v : GoVal),
      c.WhereIn f v
          = { c with whereConditions :=
                c.whereConditions ++ [⟨.vstr (f ++ " NOT IN ?"), [v]⟩] }
        ∧ c.WhereNotIn f v
          = { c with whereConditions :=
                c.whereConditions ++ [⟨.vstr (f ++ " IN ?"), [v]⟩] } :=
  fun _ _ _ => ⟨rfl, rfl⟩

/-- C6 (counterexample): `buildConditionSpec` has no `in` operator — the
mapping of this revision stops at `lte` — so `"in"` yields the empty spec
rather than an `IN` fragment, and the string-match fragment is the
lower-case `"email like ?"`, not `"email LIKE ?"` as the claim states. -/
theorem c6_counterexample :
    Criteria.buildConditionSpec "in" "status" (.vother "slice") = .ok {}
    ∧ Criteria.buildConditionSpec "like" "email" (.vstr "bar")
        = .ok { query := .vstr "email like ?", args := [.vstr "%bar%"] }
    ∧ Criteria.buildConditionSpec "like" "email" (.vstr "bar")
        ≠ .ok { query := .vstr "email LIKE ?", args := [.vstr "%bar%"] } := by
  refine ⟨by decide, by decide, by decide⟩

/-- C6 (amended): the comparison operators `eq/neq/gt/gte/lt/lte` map to
`"<field> <op> ?"` bound to the raw value; `in` is not an operator of this
revision and yields the empty spec; `like`/`llike`/`rlike` produce the
lower-case `"<field> like ?"` fragment bound to `%v%` / `%v` / `v%`. -/
theorem c6_amended_operator_table :
    ∀ (f : String) (v : GoVal) (s : String),
      Criteria.buildConditionSpec "eq" f v = .ok ⟨.vstr (f ++ " = ?"), [v]⟩
      ∧ Criteria.buildConditionSpec "neq" f v = .ok ⟨.vstr (f ++ " <> ?"), [v]⟩
      ∧ Criteria.buildConditionSpec "gt" f v = .ok ⟨.vstr (f ++ " > ?"), [v]⟩
      ∧ Criteria.buildConditionSpec "gte" f v = .ok ⟨.vstr (f ++ " >= ?"), [v]⟩
      ∧ Criteria.buildConditionSpec "lt" f v = .ok ⟨.vstr (f ++ " < ?"), [v]⟩
      ∧ Criteria.buildConditionSpec "lte" f v = .ok ⟨.vstr (f ++ " <= ?"), [v]⟩
      ∧ Criteria.buildConditionSpec "in" f v = .ok {}
      ∧ Criteria.buildConditionSpec "like" f (.vstr s)
          = .ok ⟨.vstr (f ++ " like ?"), [.vstr ("%" ++ s ++ "%")]⟩
      ∧ Criteria.buildConditionSpec "llike" f (.vstr s)
          = .ok ⟨.vstr (f ++ " like ?"), [.vstr ("%" ++ s)]⟩
      ∧ Criteria.buildConditionSpec "rlike" f (.vstr s)
          = .ok ⟨.vstr (f ++ " like ?"), [.vstr (s ++ "%")]⟩ := by
  intro f v s
  refine ⟨?_, ?_, ?_, ?_, ?_, ?_, ?_, ?_, ?_, ?_⟩ <;>
    simp [Criteria.buildConditionSpec, conditionMapping, valueStringOperator, AnyToString,
      List.lookup, String.append_assoc]

/-- C5 (counterexample): a `nil` source returns `(nil, nil)` — no error —
and a non-nil pointer to a struct is rejected with the non-struct error,
both contradicting the claim's "fails exactly when nil / nil pointer /
non-struct after dereferencing". -/
theorem c5_counterexample :
    ExtractCriteria none = .ok none
    ∧ ExtractCriteria (some (.gptr (some [⟨"Name", "name:eq", .vstr "x"⟩])))
        = .error "extract source type must be a Struct" := by
  refine ⟨rfl, rfl⟩

/-- C5 (amended): `ExtractCriteria` returns `(nil, nil)` on a nil source;
it fails with the `must be a Struct` error exactly on every non-nil source
whose reflected kind is not `Struct` — pointers are never dereferenced, so
every pointer (nil or not, to a struct or not) is rejected — and a direct
struct value proceeds into the field-extraction loop. -/
theorem c5_amended_source_checking :
    ExtractCriteria none = .ok none
    ∧ (∀ src : GoSource, src.isStructKind = false →
        ExtractCriteria (some src) = .error "extract source type must be a Struct")
    ∧ (∀ elem, ExtractCriteria (some (.gptr elem))
        = .error "extract source type must be a Struct")
    ∧ (∀ fields, ExtractCriteria (some (.gstruct fields))
        = (fields.foldlM extractField {}).map some) := by
  refine ⟨rfl, ?_, ?_, ?_⟩
  · intro src h
    cases src with
    | gstruct fields => simp [GoSource.isStructKind] at h
    | gptr elem => rfl
    | gval v => rfl
  · intro elem; rfl
  · intro fields; rfl

/-- C5 witness: the amended theorem applied at a concrete non-struct
source. -/
theorem c5_amended_source_checking_witness :
    ExtractCriteria (some (.gval (.vstr "not a struct")))
      = .error "extract source type must be a Struct" :=
  c5_amended_source_checking.2.1 (.gval (.vstr "not a struct")) (by decide)

/-- C2 (counterexample): a store with one scope closure presented with a
criteria whose `group` is `"name"` and one where-condition compiles to the
trace `[closure, where]`: no GROUP BY step is ever emitted although
`group` is set, and the scope closure runs before the condition — it is
applied second, not last. -/
theorem c2_counterexample_order :
    closureStore.present (some groupByCrit)
      |>.1.steps = [.closureStep 0, .whereStep (.vstr "a = ?") []] := by
  decide

/-- C2 (amended): `present` applies its state in the fixed order preloads,
scope closures, hidden columns, selected columns, unscoped, then the
criteria phases (OR-groups, where, or, not, having, joins, orders, offset,
limit); the criteria's `group` (GROUP BY) expression is never applied (no
step of the trace is a GROUP BY application), and the scope closures run
immediately after the preloads — before every condition, ordering, offset
and limit step — rather than last. -/
theorem c2_amended_application_order :
    ∀ (r : GormStore) (criteria : Option Criteria),
      (r.present criteria).1.steps
          = segPreloads r criteria ++ segClosures r ++ segOmit r ++ segSelect r
              ++ segUnscoped r ++ segCriteria criteria
        ∧ ((r.present criteria).1.steps.all (fun s => !s.isGroupByStep)) = true := by
  intro r criteria
  refine ⟨present_steps_decomp r criteria, ?_⟩
  rw [present_steps_decomp]
  simp only [List.all_eq_true]
  intro s hs
  simp [not_groupBy_of_presentSteps r criteria s hs]

/-- C4: in the compiled query an offset step appears exactly when
`GetOffset()` is positive (and carries that value), and a limit step
appears exactly when `limit > 0` or the offset is positive — in
particular a positive derived offset with `limit == 0` still emits a limit
step carrying the zero/unlimited sentinel — and any emitted limit step
carries the current `limit` value. -/
theorem c4_offset_limit_coupling :
    ∀ (r : GormStore) (c : Criteria),
      ((QueryStep.offsetStep c.GetOffset ∈ (r.present (some c)).1.steps)
          ↔ 0 < c.GetOffset)
        ∧ ((QueryStep.limitStep c.limit ∈ (r.present (some c)).1.steps)
          ↔ (0 < c.limit ∨ 0 < c.GetOffset))
        ∧ (∀ n, QueryStep.offsetStep n ∈ (r.present (some c)).1.steps → n = c.GetOffset)
        ∧ (∀ n, QueryStep.limitStep n ∈ (r.present (some c)).1.steps → n = c.limit) := by
  intro r c
  refine ⟨?_, ?_, ?_, ?_⟩
  · rw [present_steps_decomp, offsetStep_mem_presentSteps_iff]
    exact ⟨fun h => h.1, fun h => ⟨h, rfl⟩⟩
  · rw [present_steps_decomp, limitStep_mem_presentSteps_iff]
    exact ⟨fun h => h.1, fun h => ⟨h, rfl⟩⟩
  · intro n hn
    rw [present_steps_decomp, offsetStep_mem_presentSteps_iff] at hn
    exact hn.2
  · intro n hn
    rw [present_steps_decomp, limitStep_mem_presentSteps_iff] at hn
    exact hn.2

/-- C4 witness: the coupling evaluated on a criteria with explicit offset 7
and limit 0 — the offset step is emitted, and a limit step carrying the
zero sentinel is forced although no limit was set. -/
theorem c4_offset_limit_coupling_witness :
    QueryStep.offsetStep (NewCriteria.Offset 7).GetOffset
        ∈ (GormStore.present {} (some (NewCriteria.Offset 7))).1.steps
      ∧ QueryStep.limitStep (NewCriteria.Offset 7).limit
        ∈ (GormStore.present {} (some (NewCriteria.Offset 7))).1.steps
      ∧ (NewCriteria.Offset 7).limit = 0
      ∧ (7 : Int) = (NewCriteria.Offset 7).GetOffset
      ∧ (0 : Int) = (NewCriteria.Offset 7).limit := by
  refine ⟨?_, ?_, by decide, ?_, ?_⟩
  · exact (c4_offset_limit_coupling {} (NewCriteria.Offset 7)).1.mpr (by decide)
  · exact (c4_offset_limit_coupling {} (NewCriteria.Offset 7)).2.1.mpr (Or.inr (by decide))
  · exact (c4_offset_limit_coupling {} (NewCriteria.Offset 7)).2.2.1 7 (by decide)
  · exact (c4_offset_limit_coupling {} (NewCriteria.Offset 7)).2.2.2 0 (by decide)

/-- C3 (code bug exhibit): the `copier` clone inside `Count`/`Sum`/`Avg`
copies nothing (every `Criteria` field is unexported), so the executed
query drops every filter condition, not only ordering and limit/offset:
on the scenario table of 20 rows of which 15 match `age > 5`, the handle
`Count` executes matches all 20 rows, while a clone that only strips order
and limit — what the claim requires — matches exactly the 15 rows. -/
theorem c3_copier_clone_drops_conditions :
    copierCopyCriteria (some aggScenarioCrit) = .ok NewCriteria
      ∧ (GormStore.countPresented {} (some aggScenarioCrit)).map
          (fun p => p.1.matchCount ageAtomEval ageTable) = .ok 20
      ∧ (GormStore.present {}
            (some aggScenarioCrit.unsetOrder.unsetLimit)).1.matchCount
          ageAtomEval ageTable = 15
      ∧ ageTable.length = 20 := by
  refine ⟨rfl, by decide, by decide, by decide⟩

/-- C9 (counterexample): after `Save` on a fully populated store nothing is
cleared — the state is returned untouched, not reset; `Count` behaves the
same way. -/
theorem c9_counterexample_save_count_no_reset :
    populatedStore.saveState = populatedStore
      ∧ populatedStore.saveState ≠ populatedStore.reset
      ∧ populatedStore.countState (some NewCriteria) = populatedStore := by
  refine ⟨by decide, by decide, by decide⟩

/-- C9 (amended): the terminal operations `Insert`, `Create`(`s`,
`InBatches`), `Delete`(`s`, `ById`), `Update`(`s`, `ById`, `sById`),
`FindByID`, `FindByIDs` (with a non-empty id list), `First`, `Find`,
`FindInBatches`, `Pluck` and `Paginate` leave the store with every
transient field cleared; `FindByIDs` with an empty id list returns early
and leaves the state untouched, and `Save`, `Count`, `Sum` and `Avg` never
reset — they return the store exactly as it was. -/
theorem c9_amended_reset_after_terminal_ops :
    ∀ (r : GormStore) (c : Criteria) (copt : Option Criteria) (i : Int) (ids : List Int),
      r.insertState = clearedOf r
        ∧ r.createState = clearedOf r
        ∧ r.findState copt = clearedOf r
        ∧ r.findByIDsState (i :: ids) = clearedOf r
        ∧ r.findByIDsState [] = r
        ∧ r.paginateState c = clearedOf r
        ∧ r.saveState = r
        ∧ r.countState copt = r := by
  intro r c copt i ids
  have hsnd : ∀ (cr : Option Criteria), (r.present cr).2.reset = clearedOf r := by
    intro cr
    show (preloadPhase r cr).2.reset = clearedOf r
    rw [preloadPhase_snd]
    split_ifs <;> rfl
  have hsave : ∀ (r' : GormStore), r'.saveState = r' := by
    intro r'
    show (preloadPhase r' none).2 = r'
    rw [preloadPhase_snd]
    split_ifs <;> rfl
  have hcount : ∀ (r' : GormStore) (co : Option Criteria), r'.countState co = r' := by
    intro r' co
    cases co with
    | none => rfl
    | some c' =>
      show (preloadPhase r' (some (NewCriteria.unsetOrder.unsetLimit))).2 = r'
      rw [preloadPhase_snd]
      split_ifs with h
      · simp [mergedPreloads, NewCriteria, Criteria.unsetOrder, Criteria.unsetLimit]
      · rfl
  refine ⟨rfl, hsnd none, hsnd copt, ?_, rfl, ?_, hsave r, hcount r copt⟩
  · show (if (i :: ids).length < 1 then r else r.createState) = clearedOf r
    rw [if_neg (by simp)]
    exact hsnd none
  · show ((r.countState (some c)).present (some c)).2.reset = clearedOf r
    rw [hcount r (some c)]
    exact hsnd (some c)

end Storeit


